/-
Verification of the Todo task-tracking application (console and web variants).

The definitions below are a shallow embedding of the Python sources:
  phase-1-console/utils/models.py, phase-1-console/utils/storage.py,
  phase-1-console/skills/{add,update,complete,list,scheduler}_skill.py,
  phase-2-web/backend/skills/validation_skill.py.
Pure Python functions become Lean functions; the flat-file store becomes
explicit state passing over the task list and an explicit file-state record;
Python exceptions become Except/Option results; `datetime` values become an
explicit record of calendar fields.  The `datetime.fromisoformat` model covers
the grammar YYYY-MM-DD[&HH:MM[:SS]][(+|-)HH:MM] (any single separator char,
no fractional seconds), which is the subset exercised by this repository;
strings outside that subset are treated as unparseable.
-/
import Mathlib

set_option maxRecDepth 8000

namespace Todo

/-! ## Python string primitives -/

/-- Model of Python `str.strip()` (ASCII whitespace). -/
def pyStrip (s : String) : String :=
  String.mk (((s.data.dropWhile Char.isWhitespace).reverse.dropWhile
    Char.isWhitespace).reverse)

/-- Python truthiness of an optional string: `None` and `""` are falsy. -/
def pyTruthy : Option String → Bool
  | none => false
  | some s => s ≠ ""

/-- Model of Python `x or ""` on an optional string. -/
def pyOrEmpty : Option String → String
  | none => ""
  | some s => s

/-- Lexicographic code-point comparison of character lists: the model of
Python string `<=` as used by sort keys. -/
def charListLe : List Char → List Char → Bool
  | [], _ => true
  | _ :: _, [] => false
  | a :: as, b :: bs =>
    if a.toNat < b.toNat then true
    else if b.toNat < a.toNat then false
    else charListLe as bs

/-- Python `a <= b` on strings. -/
def pyStrLe (a b : String) : Bool := charListLe a.data b.data

/-- Model of Python `str.lower()` (ASCII case folding, which covers the
enumeration literals this code lowercases). -/
def pyLower (s : String) : String := String.mk (s.data.map Char.toLower)

/-- Recursion core of `pyReplace`, structural on a fuel argument so that it
reduces definitionally; every step consumes at least one character, so fuel
equal to the input length always suffices (the fuel-exhausted arm is never
reached from `pyReplace`). -/
def pyReplaceF : Nat → List Char → List Char → List Char → List Char
  | 0, _, _, s => s
  | _ + 1, _, _, [] => []
  | f + 1, pat, rep, a :: rest =>
    if !pat.isEmpty && pat.isPrefixOf (a :: rest) then
      rep ++ pyReplaceF f pat rep (rest.drop (pat.length - 1))
    else
      a :: pyReplaceF f pat rep rest

/-- Model of Python `str.replace(pat, rep)` (all occurrences, left to right),
on character lists.  An empty pattern leaves the string unchanged (the code
only ever replaces the nonempty patterns "Z" and "+00:00"). -/
def pyReplace (pat rep s : List Char) : List Char :=
  pyReplaceF s.length pat rep s

/-! ## Calendar / datetime model -/

/-- Model of a Python `datetime` as produced by `fromisoformat`:
calendar fields plus an optional fixed UTC offset in minutes
(negative for offsets west of UTC).  Microseconds are always zero in the
modeled grammar. -/
structure PyDateTime where
  year : Nat
  month : Nat
  day : Nat
  hour : Nat
  minute : Nat
  second : Nat
  tz : Option Int
deriving DecidableEq, Repr

def isLeapYear (y : Nat) : Bool :=
  y % 4 = 0 && (y % 100 ≠ 0 || y % 400 = 0)

def daysInMonth (y m : Nat) : Nat :=
  if m = 2 then (if isLeapYear y then 29 else 28)
  else if m = 4 || m = 6 || m = 9 || m = 11 then 30
  else 31

def digitVal? (c : Char) : Option Nat :=
  if c.isDigit then some (c.toNat - 48) else none

def parse2 : List Char → Option (Nat × List Char)
  | a :: b :: rest =>
    match digitVal? a, digitVal? b with
    | some x, some y => some (10 * x + y, rest)
    | _, _ => none
  | _ => none

def parse4 : List Char → Option (Nat × List Char)
  | a :: b :: c :: d :: rest =>
    match digitVal? a, digitVal? b, digitVal? c, digitVal? d with
    | some w, some x, some y, some z => some (1000 * w + 100 * x + 10 * y + z, rest)
    | _, _, _, _ => none
  | _ => none

def expectChar (c : Char) : List Char → Option (List Char)
  | a :: rest => if a = c then some rest else none
  | [] => none

/-- Parse the optional trailing UTC offset `(+|-)HH:MM`; `none` input chars
mean a naive datetime.  Returns the offset in minutes. -/
def parseOffset : List Char → Option (Option Int)
  | [] => some none
  | sign :: rest =>
    if sign = '+' || sign = '-' then do
      let (oh, r) ← parse2 rest
      let r ← expectChar ':' r
      let (om, r) ← parse2 r
      if r.isEmpty && om ≤ 59 && oh * 60 + om < 1440 then
        let mins : Int := oh * 60 + om
        some (some (if sign = '-' then -mins else mins))
      else none
    else none

/-- The optional `:SS` seconds component after `HH:MM`. -/
def parseSeconds : List Char → Option (Nat × List Char)
  | ':' :: r2 => parse2 r2
  | r => some (0, r)

/-- The time-of-day part after the single separator character: `HH:MM[:SS]`
plus the optional offset; an absent time part means midnight, naive. -/
def parseTimePart : List Char → Option (Nat × Nat × Nat × Option Int)
  | [] => some (0, 0, 0, none)
  | _ :: rest => do
    let (hh, r) ← parse2 rest
    let r ← expectChar ':' r
    let (mi, r) ← parse2 r
    let (ss, r) ← parseSeconds r
    let tz ← parseOffset r
    some (hh, mi, ss, tz)

/-- Model of Python `datetime.fromisoformat` on the grammar described in the
file header.  Field ranges are validated as the `datetime` constructor does. -/
def fromisoformat (s : String) : Option PyDateTime := do
  let cs := s.data
  let (y, cs) ← parse4 cs
  let cs ← expectChar '-' cs
  let (mo, cs) ← parse2 cs
  let cs ← expectChar '-' cs
  let (d, cs) ← parse2 cs
  let (hh, mi, ss, tz) ← parseTimePart cs
  if 1 ≤ y && y ≤ 9999 && 1 ≤ mo && mo ≤ 12 && 1 ≤ d && d ≤ daysInMonth y mo
      && hh ≤ 23 && mi ≤ 59 && ss ≤ 59 then
    some ⟨y, mo, d, hh, mi, ss, tz⟩
  else none

def digitChar (n : Nat) : Char := Char.ofNat (48 + n % 10)

def pad2 (n : Nat) : List Char := [digitChar (n / 10), digitChar n]

def pad4 (n : Nat) : List Char :=
  [digitChar (n / 1000), digitChar (n / 100), digitChar (n / 10), digitChar n]

/-- The offset suffix printed by `datetime.isoformat` (empty for naive). -/
def offsetChars : Option Int → List Char
  | none => []
  | some k =>
    (if k < 0 then '-' else '+') :: (pad2 (k.natAbs / 60) ++ ':' :: pad2 (k.natAbs % 60))

/-- The date-time part of `datetime.isoformat()` (everything before the
offset suffix). -/
def coreChars (dt : PyDateTime) : List Char :=
  pad4 dt.year ++ '-' :: pad2 dt.month ++ '-' :: pad2 dt.day
    ++ 'T' :: pad2 dt.hour ++ ':' :: pad2 dt.minute ++ ':' :: pad2 dt.second

/-- Model of Python `datetime.isoformat()` (microseconds zero, 'T' separator). -/
def isoformatChars (dt : PyDateTime) : List Char :=
  coreChars dt ++ offsetChars dt.tz

def isoformat (dt : PyDateTime) : String := String.mk (isoformatChars dt)

/-- "Carries a Z suffix": the serialized date string ends in the character
'Z'. -/
def endsWithZ (s : String) : Bool := s.data.getLast? = some 'Z'

/-- Model of `s.replace('Z', '+00:00')`, as applied before every parse. -/
def replaceZ (s : String) : String :=
  String.mk (pyReplace ['Z'] "+00:00".data s.data)

/-- Days since 1970-01-01 of a civil date (standard days-from-civil
algorithm); valid for years 1..9999, which `fromisoformat` guarantees. -/
def daysFromCivil (y m d : Nat) : Int :=
  let yi : Int := if m ≤ 2 then (y : Int) - 1 else (y : Int)
  let era : Int := yi / 400
  let yoe : Int := yi - era * 400
  let mp : Int := (if m ≤ 2 then (m : Int) + 9 else (m : Int) - 3)
  let doy : Int := (153 * mp + 2) / 5 + (d : Int) - 1
  let doe : Int := yoe * 365 + yoe / 4 - yoe / 100 + doy
  era * 146097 + doe - 719468

/-- Seconds since the epoch of the naive (offset-stripped) wall-clock value:
the model of `dt.replace(tzinfo=None)` comparisons and subtractions. -/
def naiveSeconds (dt : PyDateTime) : Int :=
  daysFromCivil dt.year dt.month dt.day * 86400
    + dt.hour * 3600 + dt.minute * 60 + dt.second

/-! ## Enumerations and validation (phase-1-console/utils/models.py) -/

inductive Priority where
  | high
  | medium
  | low
deriving DecidableEq, Repr

/-- `Priority.value`: the backing string of the `Priority(str, Enum)` member. -/
def Priority.value : Priority → String
  | .high => "high"
  | .medium => "medium"
  | .low => "low"

/-- `Priority.from_string`: case-insensitive parse, `ValueError` on mismatch. -/
def Priority.from_string (s : String) : Except String Priority :=
  match pyLower s with
  | "high" => .ok .high
  | "medium" => .ok .medium
  | "low" => .ok .low
  | _ => .error ("Invalid priority: " ++ s ++ ". Must be one of: high, medium, low")

inductive Status where
  | pending
  | in_progress
  | completed
deriving DecidableEq, Repr

def Status.value : Status → String
  | .pending => "pending"
  | .in_progress => "in_progress"
  | .completed => "completed"

/-- `Status.from_string`: case-insensitive parse, `ValueError` on mismatch. -/
def Status.from_string (s : String) : Except String Status :=
  match pyLower s with
  | "pending" => .ok .pending
  | "in_progress" => .ok .in_progress
  | "completed" => .ok .completed
  | _ => .error ("Invalid status: " ++ s ++ ". Must be one of: pending, in_progress, completed")

def MAX_TITLE_LENGTH : Nat := 200
def MAX_CATEGORY_LENGTH : Nat := 50

/-- `models.validate_title` (console variant, limit 200): strip, reject empty
or over-long, return the stripped title. -/
def validate_title (title : String) : Except String String :=
  let t := pyStrip title
  if t = "" then .error "Title cannot be empty"
  else if t.length > MAX_TITLE_LENGTH then
    .error "Title cannot exceed 200 characters"
  else .ok t

/-- `models.validate_category` (console variant, limit 50): strip, reject
over-long, empty normalizes to the default category. -/
def validate_category (category : String) : Except String String :=
  let c := pyStrip category
  if c.length > MAX_CATEGORY_LENGTH then
    .error "Category cannot exceed 50 characters"
  else .ok (if c = "" then "general" else c)

/-- `models.validate_due_date`: parse `due_date.replace('Z', '+00:00')` with
`fromisoformat`, re-serialize with `isoformat()`, then apply
`.replace('+00:00', 'Z')` to the result. -/
def validate_due_date (due_date : String) : Except String String :=
  match fromisoformat (replaceZ due_date) with
  | some dt =>
    .ok (String.mk (pyReplace "+00:00".data ['Z'] (isoformatChars dt)))
  | none =>
    .error ("Invalid date format: " ++ due_date ++ ". Use YYYY-MM-DD or ISO 8601.")

/-! ## Task record (phase-1-console/utils/models.py, `Task` dataclass)

The store holds well-formed task dictionaries, so the model keeps the
round-tripped record directly (`to_dict`/`from_dict` are the identity on it). -/

structure Task where
  id : Nat
  title : String
  priority : Priority
  category : String
  status : Status
  completed : Bool
  created_at : String
  updated_at : Option String
  completed_at : Option String
  due_date : Option String
deriving DecidableEq, Repr

/-- `Task.mark_completed` (`now` is the `datetime.utcnow().isoformat()+"Z"`
string taken at call time). -/
def Task.mark_completed (t : Task) (now : String) : Task :=
  { t with
    completed := true
    status := .completed
    completed_at := some now
    updated_at := some now }

/-- `Task.mark_incomplete`. -/
def Task.mark_incomplete (t : Task) (now : String) : Task :=
  { t with
    completed := false
    status := .pending
    completed_at := none
    updated_at := some now }

/-- `Task.is_overdue` at naive-UTC instant `now` (seconds): a non-completed
task with a truthy, parseable due date strictly in the past.  The code strips
the parsed offset (`due.replace(tzinfo=None)`) before comparing. -/
def Task.is_overdue (t : Task) (now : Int) : Bool :=
  if !pyTruthy t.due_date || t.completed then false
  else
    match fromisoformat (replaceZ (pyOrEmpty t.due_date)) with
    | some due => now > naiveSeconds due
    | none => false

/-! ## OperationResult (phase-1-console/utils/models.py) -/

/-- The uniform response envelope.  `data` is `Any` in Python; the model makes
the payload type a parameter. -/
structure OperationResult (α : Type) where
  success : Bool
  message : String
  data : Option α
  error : Option String
  error_code : Option String
deriving DecidableEq, Repr

/-- `OperationResult.success_result`. -/
def OperationResult.success_result (message : String) (data : Option α) :
    OperationResult α :=
  { success := true, message := message, data := data, error := none, error_code := none }

/-- `OperationResult.error_result`. -/
def OperationResult.error_result (error : String) (code : String) :
    OperationResult α :=
  { success := false
    message := "Operation failed: " ++ error
    data := none
    error := some error
    error_code := some code }

/-- `ERROR_CODES` table from models.py. -/
def CODE_NOT_FOUND : String := "TASK_NOT_FOUND"
def CODE_VALIDATION : String := "VALIDATION_ERROR"
def CODE_STORAGE : String := "STORAGE_ERROR"
def CODE_NO_CHANGES : String := "NO_CHANGES_PROVIDED"

/-! ## Storage layer (phase-1-console/utils/storage.py)

The loaded collection is the explicit `List Task` state; `load_tasks` on the
happy path returns it and `save_tasks` replaces it, so the list-level
operations below thread it directly.  The file-level atomicity of
`save_tasks` is modeled separately on `FileState`. -/

namespace Storage

/-- `storage.get_next_id`: 1 on an empty collection, otherwise
`max(task.get('id', 0) for task in tasks) + 1`. -/
def get_next_id (tasks : List Task) : Nat :=
  if tasks.isEmpty then 1
  else (tasks.map Task.id).foldl max 0 + 1

/-- `storage.find_task_by_id`: first task with the given id, else `None`. -/
def find_task_by_id (tasks : List Task) (task_id : Nat) : Option Task :=
  tasks.find? (fun t => t.id = task_id)

/-- The in-place update loop of `storage.update_task`: apply `f` to the first
task matching the id (then `break`); the Bool reports whether one was found. -/
def updateFirst (task_id : Nat) (f : Task → Task) : List Task → List Task × Bool
  | [] => ([], false)
  | t :: rest =>
    if t.id = task_id then (f t :: rest, true)
    else
      let (r, found) := updateFirst task_id f rest
      (t :: r, found)

/-- `storage.delete_task` on the loaded collection: filter out every task with
the matching id; `False` when nothing was removed. -/
def delete_task (tasks : List Task) (task_id : Nat) : List Task × Bool :=
  let filtered := tasks.filter (fun t => t.id ≠ task_id)
  (filtered, decide (filtered.length ≠ tasks.length))

/-! ### File-level atomic save (`storage.save_tasks`)

`save_tasks` writes the collection to `todos.json.tmp`, fsyncs, atomically
renames it over `todos.json`, and in a `finally` block best-effort removes a
surviving temp file.  `FileState` holds the two files; failures are injected
by a `FailSpec` oracle (write step, rename step, and the best-effort cleanup). -/

/-- Contents of the temporary file: a partial (interrupted) write or the full
serialized collection. -/
inductive TmpFile where
  | partialWrite
  | full (tasks : List Task)
deriving DecidableEq, Repr

structure FileState where
  canonical : Option (List Task)
  tmp : Option TmpFile
deriving DecidableEq, Repr

structure FailSpec where
  writeOk : Bool
  renameOk : Bool
  cleanupOk : Bool
deriving DecidableEq, Repr

/-- Writing the temp file: on failure the temp file holds a partial write. -/
def writeTmp (fs : FileState) (tasks : List Task) (ok : Bool) : FileState × Bool :=
  if ok then ({ fs with tmp := some (.full tasks) }, true)
  else ({ fs with tmp := some .partialWrite }, false)

/-- `os.replace(temp_file, TODOS_FILE)`: atomic, so on failure nothing moved. -/
def renameTmp (fs : FileState) (ok : Bool) : FileState × Bool :=
  match fs.tmp, ok with
  | some (.full tasks), true => ({ canonical := some tasks, tmp := none }, true)
  | _, _ => (fs, false)

/-- The `finally` block: remove the temp file if it exists, swallowing any
removal failure. -/
def cleanupTmp (fs : FileState) (ok : Bool) : FileState :=
  match fs.tmp with
  | none => fs
  | some _ => if ok then { fs with tmp := none } else fs

/-- `storage.save_tasks`: write temp, rename, best-effort cleanup; the Bool is
`True` on success and `False` when a `StorageError` was raised. -/
def save_tasks (fs : FileState) (tasks : List Task) (spec : FailSpec) :
    FileState × Bool :=
  let (fs1, wOk) := writeTmp fs tasks spec.writeOk
  if wOk then
    let (fs2, rOk) := renameTmp fs1 spec.renameOk
    (cleanupTmp fs2 spec.cleanupOk, rOk)
  else
    (cleanupTmp fs1 spec.cleanupOk, false)

/-! ### Field updates (`storage.update_task`)

The `updates` dict passed by the skills holds at most these keys.
`complete_skill` also passes `updated_at`, but `storage.update_task` stamps
`updated_at` itself after applying the dict, overwriting it; the model
therefore stamps unconditionally and omits the redundant key. -/

structure Updates where
  title : Option String
  priority : Option Priority
  category : Option String
  status : Option Status
  completed : Option Bool
  completed_at : Option (Option String)
  due_date : Option (Option String)
deriving DecidableEq, Repr

def Updates.empty : Updates := ⟨none, none, none, none, none, none, none⟩

/-- Apply the provided keys of an updates dict to a task record. -/
def applyUpdates (t : Task) (u : Updates) : Task :=
  { t with
    title := u.title.getD t.title
    priority := u.priority.getD t.priority
    category := u.category.getD t.category
    status := u.status.getD t.status
    completed := u.completed.getD t.completed
    completed_at := match u.completed_at with | some v => v | none => t.completed_at
    due_date := match u.due_date with | some v => v | none => t.due_date }

/-- `storage.update_task` on the loaded collection (happy-path save): update
the first matching task with the provided fields, stamp `updated_at`, and
report whether the id was found. -/
def update_task (tasks : List Task) (task_id : Nat) (u : Updates) (now : String) :
    List Task × Bool :=
  updateFirst task_id (fun t => { applyUpdates t u with updated_at := some now }) tasks

end Storage

/-! ## Skills (phase-1-console/skills) -/

namespace Skills

/-- `if title is not None: updates['title'] = validate_title(title)`. -/
def stepTitle (title : Option String) (u : Storage.Updates) :
    Except String Storage.Updates :=
  match title with
  | none => .ok u
  | some s => (validate_title s).map fun v => { u with title := some v }

/-- `if priority is not None: updates['priority'] = Priority.from_string(...)`. -/
def stepPriority (priority : Option String) (u : Storage.Updates) :
    Except String Storage.Updates :=
  match priority with
  | none => .ok u
  | some s => (Priority.from_string s).map fun p => { u with priority := some p }

/-- `if category is not None: updates['category'] = validate_category(...)`. -/
def stepCategory (category : Option String) (u : Storage.Updates) :
    Except String Storage.Updates :=
  match category with
  | none => .ok u
  | some s => (validate_category s).map fun c => { u with category := some c }

/-- `if status is not None:` parse the status; a parsed value of `completed`
also puts `completed = True` into the updates dict. -/
def stepStatus (status : Option String) (u : Storage.Updates) :
    Except String Storage.Updates :=
  match status with
  | none => .ok u
  | some s =>
    (Status.from_string s).map fun st =>
      if st = Status.completed then
        { u with status := some st, completed := some true }
      else
        { u with status := some st }

/-- `if due_date is not None:` a truthy due date is validated; an empty one
stores `None`, clearing the field. -/
def stepDueDate (due_date : Option String) (u : Storage.Updates) :
    Except String Storage.Updates :=
  match due_date with
  | none => .ok u
  | some s =>
    if s ≠ "" then (validate_due_date s).map fun d => { u with due_date := some (some d) }
    else .ok { u with due_date := some none }

/-- The validation phase of `update_skill.update_task`: each provided field is
validated in order (title, priority, category, status, due date); the first
`ValueError` aborts the whole update. -/
def buildUpdates (title priority category status due_date : Option String) :
    Except String Storage.Updates :=
  stepTitle title Storage.Updates.empty >>= stepPriority priority
    >>= stepCategory category >>= stepStatus status >>= stepDueDate due_date

/-- `update_skill.update_task`: returns the (possibly unchanged) store
together with the `OperationResult`.  The leading guard is Python
`any([title, priority, category, status, due_date])`, under which a provided
empty string counts as absent. -/
def update_task (tasks : List Task) (task_id : Nat)
    (title priority category status due_date : Option String) (now : String) :
    List Task × OperationResult Task :=
  if !(pyTruthy title || pyTruthy priority || pyTruthy category
      || pyTruthy status || pyTruthy due_date) then
    (tasks, .error_result "No fields to update. Please specify at least one field."
      CODE_NO_CHANGES)
  else
    match Storage.find_task_by_id tasks task_id with
    | none =>
      (tasks, .error_result ("Task with ID " ++ toString task_id ++ " not found")
        CODE_NOT_FOUND)
    | some _ =>
      match buildUpdates title priority category status due_date with
      | .error e => (tasks, .error_result e CODE_VALIDATION)
      | .ok u =>
        let (tasks2, ok) := Storage.update_task tasks task_id u now
        if ok then
          (tasks2, .success_result ("Task #" ++ toString task_id ++ " updated successfully")
            (Storage.find_task_by_id tasks2 task_id))
        else
          (tasks2, .error_result ("Failed to update task #" ++ toString task_id)
            CODE_STORAGE)

/-- `complete_skill.complete_task`: resolve the task, apply
`mark_completed` / `mark_incomplete` / toggle on the in-memory record, and
write the resulting completion fields back through `storage.update_task`. -/
def complete_task (tasks : List Task) (task_id : Nat) (uncomplete toggle : Bool)
    (now : String) : List Task × OperationResult Task :=
  match Storage.find_task_by_id tasks task_id with
  | none =>
    (tasks, .error_result ("Task with ID " ++ toString task_id ++ " not found")
      CODE_NOT_FOUND)
  | some t0 =>
    let t :=
      if toggle then
        if t0.completed then t0.mark_incomplete now else t0.mark_completed now
      else if uncomplete then t0.mark_incomplete now
      else t0.mark_completed now
    let u := { Storage.Updates.empty with
      completed := some t.completed
      status := some t.status
      completed_at := some t.completed_at }
    let (tasks2, ok) := Storage.update_task tasks task_id u now
    if ok then
      (tasks2, .success_result ("Task #" ++ toString task_id ++ " updated") (some t))
    else
      (tasks2, .error_result ("Failed to update task #" ++ toString task_id)
        CODE_STORAGE)

/-- The persistence phase of `add_skill.add_task` (validation already passed):
allocate `get_next_id`, build the record with the defaults of the `Task`
dataclass, append, save.  Returns the new store and the assigned id. -/
def add_task_state (tasks : List Task) (title : String) (priority : Priority)
    (category : String) (due_date : Option String) (now : String) :
    List Task × Nat :=
  let task_id := Storage.get_next_id tasks
  (tasks ++ [{ id := task_id, title := title, priority := priority,
               category := category, status := .pending, completed := false,
               created_at := now, updated_at := none, completed_at := none,
               due_date := due_date }], task_id)

end Skills

/-! ## TaskFilter (models.py) -/

structure TaskFilter where
  status : Option Status
  priority : Option Priority
  category : Option String
  completed : Option Bool
  overdue_only : Bool
deriving DecidableEq, Repr

/-- `TaskFilter.matches`: conjunction of the set predicates.  The category
check is guarded by Python truthiness (`if self.category and ...`), so an
empty-string category filter is skipped; the completed check uses
`is not None` and so applies even for `False`. -/
def TaskFilter.matches (f : TaskFilter) (t : Task) (now : Int) : Bool :=
  (match f.status with | some s => t.status = s | none => true)
  && (match f.priority with | some p => t.priority = p | none => true)
  && (match f.category with
      | some c => if c = "" then true else t.category = c
      | none => true)
  && (match f.completed with | some b => t.completed = b | none => true)
  && (!f.overdue_only || t.is_overdue now)

/-! ## Sorting (list_skill.py)

`list_tasks` sorts with `key=lambda t: getattr(t, sort_by) ... else ""`.
`getattr` distinguishes three kinds of name:
  - a data attribute of the `Task` dataclass: its value becomes the key —
    an int for `id`, a bool for `completed`, a string otherwise
    (string-backed enums compare by their value string; a `None` timestamp
    becomes `""`);
  - a method defined by the `Task` class (`mark_completed`, `to_dict`, ...):
    `getattr` resolves the bound method, which is not `None` and so becomes
    the key; as soon as the sort compares two such keys (two or more
    elements) it raises `TypeError`, which `except AttributeError` does not
    catch — the outer `except Exception` turns it into an `UNKNOWN_ERROR`
    failure envelope;
  - any other name: `AttributeError` during key computation, which CPython's
    sort raises before reordering anything, and the skill swallows it — the
    list stays in load order.
The modeled attribute space is the ten data fields plus the methods the
`Task` dataclass itself defines (listed in `taskMethodNames`); attributes
inherited from the underlying Python object protocol (dunder names such as
`__init__`) are outside the modeled name space.  Python's sort is stable;
`List.insertionSort` with the corresponding total preorder computes the
same list. -/

inductive PyKey where
  | pint (n : Nat)
  | pbool (b : Bool)
  | pstr (s : String)
deriving DecidableEq, Repr

def PyKey.le : PyKey → PyKey → Bool
  | .pint a, .pint b => a ≤ b
  | .pbool a, .pbool b => !a || b
  | .pstr a, .pstr b => pyStrLe a b
  | .pint _, _ => true
  | _, .pint _ => false
  | .pbool _, _ => true
  | _, .pbool _ => false

/-- `getattr(t, sort_by)` as a key function for the data attributes of the
`Task` dataclass; `none` when `sort_by` names no data attribute (see
`taskMethodNames` and `sortTasks` for what happens then). -/
def keyFun : String → Option (Task → PyKey)
  | "id" => some fun t => .pint t.id
  | "title" => some fun t => .pstr t.title
  | "priority" => some fun t => .pstr t.priority.value
  | "category" => some fun t => .pstr t.category
  | "status" => some fun t => .pstr t.status.value
  | "completed" => some fun t => .pbool t.completed
  | "created_at" => some fun t => .pstr t.created_at
  | "updated_at" => some fun t => .pstr (t.updated_at.getD "")
  | "completed_at" => some fun t => .pstr (t.completed_at.getD "")
  | "due_date" => some fun t => .pstr (t.due_date.getD "")
  | _ => none

/-- The methods the `Task` class itself defines (models.py): `getattr` on a
task instance resolves each of them to a bound method. -/
def taskMethodNames : List String :=
  ["mark_completed", "mark_incomplete", "update_fields", "is_overdue",
   "days_until_due", "to_dict", "from_dict", "__post_init__"]

/-- Stand-in for the text of the CPython `TypeError` raised when the sort
compares two bound-method keys; no claim depends on its wording. -/
def methodCompareErrorText : String :=
  "unsupported comparison between bound method objects"

/-- The sort step of `list_tasks`: a data-attribute key sorts (stable,
ascending or descending); a method-valued key raises `TypeError` once two
keys are compared, i.e. when the list has at least two elements (`none`
result — the error escapes the `except AttributeError`); any other name is
an `AttributeError`, swallowed, leaving the list in load order. -/
def sortTasks (sort_by sort_order : String) (l : List Task) : Option (List Task) :=
  match keyFun sort_by with
  | some k =>
    some (if sort_order = "desc" then
      List.insertionSort (fun a b => PyKey.le (k b) (k a) = true) l
    else
      List.insertionSort (fun a b => PyKey.le (k a) (k b) = true) l)
  | none =>
    if sort_by ∈ taskMethodNames then
      if 2 ≤ l.length then none else some l
    else
      some l

/-- The payload shapes `list_tasks` puts into `OperationResult.data`. -/
inductive ListPayload where
  | jsonTasks (ts : List Task)
  | simpleText (s : String)
  | tableData (ts : List Task)
deriving DecidableEq, Repr

/-- One line of the `simple` output format. -/
def simpleLine (t : Task) : String :=
  toString t.id ++ ". [" ++ (if t.completed then "✓" else "○") ++ "] "
    ++ t.title ++ " (" ++ t.priority.value ++ ")"
    ++ (if pyTruthy t.due_date then " - Due: " ++ pyOrEmpty t.due_date else "")

namespace Skills

/-- `list_skill.list_tasks`: build the filter (an invalid status/priority
string is a `ValueError` → validation failure; the literal "all" means no
filter), filter, sort, truncate to a positive limit, format. -/
def list_tasks (tasks : List Task) (status priority category : Option String)
    (completed : Option Bool) (overdue_only : Bool) (sort_by sort_order : String)
    (limit : Option Int) (output_format : String) (now : Int) :
    OperationResult ListPayload :=
  let statusE : Except String (Option Status) :=
    if pyTruthy status && status ≠ some "all" then
      (Status.from_string (pyOrEmpty status)).map some
    else .ok none
  let priorityE : Except String (Option Priority) :=
    if pyTruthy priority && priority ≠ some "all" then
      (Priority.from_string (pyOrEmpty priority)).map some
    else .ok none
  match statusE, priorityE with
  | .error e, _ => .error_result e CODE_VALIDATION
  | _, .error e => .error_result e CODE_VALIDATION
  | .ok fs, .ok fp =>
    let f : TaskFilter :=
      { status := fs
        priority := fp
        category := if pyTruthy category && category ≠ some "all" then category else none
        completed := completed
        overdue_only := overdue_only }
    let filtered := tasks.filter (fun t => f.matches t now)
    match sortTasks sort_by sort_order filtered with
    | none =>
      .error_result ("Unexpected error: " ++ methodCompareErrorText) "UNKNOWN_ERROR"
    | some sorted =>
      let limited :=
        match limit with
        | some n => if 0 < n then sorted.take n.toNat else sorted
        | none => sorted
      let msg := "Showing " ++ toString limited.length ++ " tasks"
      if output_format = "json" then
        .success_result msg (some (.jsonTasks limited))
      else if output_format = "simple" then
        let lines := limited.map simpleLine
        .success_result msg
          (some (.simpleText (if lines.isEmpty then "No tasks found."
            else String.intercalate "\n" lines)))
      else
        .success_result msg (some (.tableData limited))

/-- The selection predicate of `scheduler_skill.get_upcoming_tasks`: skip
completed tasks and falsy or unparseable due dates; keep a task when
`(due.replace(tzinfo=None) - now).days`, i.e. the floor of the difference in
whole days, lies in `[0, days]`. -/
def upcomingPred (days now : Int) (t : Task) : Bool :=
  if t.completed || !pyTruthy t.due_date then false
  else
    match fromisoformat (replaceZ (pyOrEmpty t.due_date)) with
    | some due =>
      let days_until := Int.fdiv (naiveSeconds due - now) 86400
      decide (0 ≤ days_until ∧ days_until ≤ days)
    | none => false

/-- `scheduler_skill.get_upcoming_tasks`, with the current naive-UTC instant
passed explicitly (seconds).  Sorts by `t.due_date or ""`. -/
def get_upcoming_tasks (tasks : List Task) (days : Int) (now : Int) :
    OperationResult (List Task) :=
  let upcoming := tasks.filter (upcomingPred days now)
  let sorted :=
    List.insertionSort
      (fun a b => pyStrLe (pyOrEmpty a.due_date) (pyOrEmpty b.due_date) = true) upcoming
  .success_result ("Found " ++ toString sorted.length ++ " upcoming tasks") (some sorted)

end Skills

/-! ## Create/delete traces (for the id-assignment invariant)

A trace of happy-path creates and deletes against an initially empty store,
recording every id assigned by a create and every id removed by a successful
delete. -/

inductive StoreOp where
  | create
  | remove (i : Nat)
deriving DecidableEq, Repr

structure RunState where
  tasks : List Task
  assigned : List Nat
  deleted : List Nat
deriving DecidableEq, Repr

def RunState.initial : RunState := ⟨[], [], []⟩

def stepOp (s : RunState) : StoreOp → RunState
  | .create =>
    let (tasks, i) := Skills.add_task_state s.tasks "task" .medium "general" none "now"
    { s with tasks := tasks, assigned := s.assigned ++ [i] }
  | .remove i =>
    let (tasks, ok) := Storage.delete_task s.tasks i
    if ok then { s with tasks := tasks, deleted := s.deleted ++ [i] }
    else { s with tasks := tasks }

def runOps (ops : List StoreOp) : RunState :=
  ops.foldl stepOp RunState.initial

/-- The store after `n` consecutive happy-path creates from the empty store. -/
def createMany : Nat → List Task
  | 0 => []
  | n + 1 => (Skills.add_task_state (createMany n) "task" .medium "general" none "now").1

/-! ## Web variant validation (phase-2-web/backend/skills/validation_skill.py) -/

/-- `validation_skill.validate_task_title`: required, not whitespace-only,
and the 500-character limit is checked against the raw (untrimmed) string. -/
def validate_task_title (title : Option String) : Bool × Option String :=
  match title with
  | none => (false, some "Title is required and cannot be empty")
  | some t =>
    if t = "" then (false, some "Title is required and cannot be empty")
    else if pyStrip t = "" then (false, some "Title is required and cannot be empty")
    else if t.length > 500 then (false, some "Title cannot exceed 500 characters")
    else (true, none)

/-! ## Concrete stores used by the scenario theorems -/

def sampleNow : String := "2025-06-01T12:00:00Z"

/-- A freshly created task 1, as scenario C starts from. -/
def milkTask : Task :=
  { id := 1, title := "Buy milk", priority := .medium, category := "general",
    status := .pending, completed := false,
    created_at := "2025-05-01T00:00:00Z", updated_at := none,
    completed_at := none, due_date := none }

/-- A task satisfying the completion equivalence (`completed` and a
`completed` status), about to be un-completed via a status update. -/
def doneTask : Task :=
  { id := 1, title := "Done already", priority := .high, category := "general",
    status := .completed, completed := true,
    created_at := "2025-05-01T00:00:00Z", updated_at := none,
    completed_at := some "2025-05-02T00:00:00Z", due_date := none }

/-- Two tasks whose categories order opposite to their load order. -/
def catTaskB : Task :=
  { id := 1, title := "First", priority := .medium, category := "b",
    status := .pending, completed := false,
    created_at := "2025-05-01T00:00:00Z", updated_at := none,
    completed_at := none, due_date := none }

def catTaskA : Task :=
  { id := 2, title := "Second", priority := .medium, category := "a",
    status := .pending, completed := false,
    created_at := "2025-05-02T00:00:00Z", updated_at := none,
    completed_at := none, due_date := none }

/-- The naive-UTC instant 2024-01-02T00:00:00 in seconds. -/
def schedNow : Int := naiveSeconds ⟨2024, 1, 2, 0, 0, 0, none⟩

/-- An incomplete task due twelve hours after `schedNow`. -/
def noonTask : Task :=
  { id := 7, title := "Lunch", priority := .medium, category := "general",
    status := .pending, completed := false,
    created_at := "2024-01-01T00:00:00Z", updated_at := none,
    completed_at := none, due_date := some "2024-01-02T12:00:00" }

/-! ## C5: completion state after mark_completed / mark_incomplete -/

/-- C5: for every task, after `mark_completed` the task has
`completed = true`, `status = completed`, a non-null `completed_at`, and
`updated_at` equal to `completed_at`; after `mark_incomplete` it has
`completed = false`, `status = pending`, and `completed_at = null`. -/
theorem C5_mark_completion_state (t : Task) (now : String) :
    ((t.mark_completed now).completed = true
      ∧ (t.mark_completed now).status = Status.completed
      ∧ (t.mark_completed now).completed_at = some now
      ∧ (t.mark_completed now).updated_at = (t.mark_completed now).completed_at)
    ∧ ((t.mark_incomplete now).completed = false
      ∧ (t.mark_incomplete now).status = Status.pending
      ∧ (t.mark_incomplete now).completed_at = none) := by
  simp [Task.mark_completed, Task.mark_incomplete]

/-! ## C6: the OperationResult envelope

All engine operations build their envelopes through
`OperationResult.success_result` and `OperationResult.error_result` only, so
the two constructors characterize every returned envelope.  The claim that a
failure envelope leaves the success-path fields unpopulated is false:
`error_result` derives a non-empty `message` from the error text. -/

/-- C6 counterexample: a failure envelope does populate the success-path
field `message` (with "Operation failed: " prefixed to the error), so the
two paths are not mutually exclusive as claimed. -/
theorem C6_error_result_populates_message :
    (OperationResult.error_result "boom" "SOME_CODE" : OperationResult Task).success = false
    ∧ (OperationResult.error_result "boom" "SOME_CODE" : OperationResult Task).message
        = "Operation failed: boom"
    ∧ (OperationResult.error_result "boom" "SOME_CODE" : OperationResult Task).message ≠ "" := by
  refine ⟨rfl, rfl, ?_⟩
  decide

/-- C6 amended: a success envelope populates `message` (and whatever `data`
the operation supplies) and leaves `error`/`error_code` null; a failure
envelope populates `error` and `error_code` and leaves `data` null, but also
carries the derived message "Operation failed: " ++ error.  `success` flags
which side applies. -/
theorem C6_envelope_shape (α : Type) (msg : String) (d : Option α) (err code : String) :
    ((OperationResult.success_result msg d).success = true
      ∧ (OperationResult.success_result msg d).message = msg
      ∧ (OperationResult.success_result msg d).data = d
      ∧ (OperationResult.success_result msg d).error = none
      ∧ (OperationResult.success_result msg d).error_code = none)
    ∧ ((OperationResult.error_result err code : OperationResult α).success = false
      ∧ (OperationResult.error_result err code : OperationResult α).message
          = "Operation failed: " ++ err
      ∧ (OperationResult.error_result err code : OperationResult α).data = none
      ∧ (OperationResult.error_result err code : OperationResult α).error = some err
      ∧ (OperationResult.error_result err code : OperationResult α).error_code = some code) := by
  simp [OperationResult.success_result, OperationResult.error_result]

/-! ## C2: atomicity of save_tasks -/

/-- C2: `save_tasks` is all-or-nothing.  On success the canonical file holds
exactly the saved collection and no temporary artifact survives; on any
failure (during the temporary write or at the rename) the canonical file's
prior contents are unchanged; and whenever the best-effort cleanup succeeds,
no temporary artifact survives either way. -/
theorem C2_save_tasks_atomic (fs : Storage.FileState) (tasks : List Task)
    (spec : Storage.FailSpec) :
    ((Storage.save_tasks fs tasks spec).2 = true →
      (Storage.save_tasks fs tasks spec).1.canonical = some tasks
        ∧ (Storage.save_tasks fs tasks spec).1.tmp = none)
    ∧ ((Storage.save_tasks fs tasks spec).2 = false →
      (Storage.save_tasks fs tasks spec).1.canonical = fs.canonical)
    ∧ (spec.cleanupOk = true → (Storage.save_tasks fs tasks spec).1.tmp = none) := by
  obtain ⟨w, r, c⟩ := spec
  cases w <;> cases r <;> cases c <;>
    simp [Storage.save_tasks, Storage.writeTmp, Storage.renameTmp, Storage.cleanupTmp]

/-- C2 witness: a failed write on a store holding one task leaves the
canonical contents intact and (the cleanup succeeding) no temp file. -/
theorem C2_save_tasks_atomic_witness :
    (Storage.save_tasks ⟨some [milkTask], none⟩ [] ⟨false, true, true⟩).2 = false
    ∧ (Storage.save_tasks ⟨some [milkTask], none⟩ [] ⟨false, true, true⟩).1.canonical
        = some [milkTask]
    ∧ (Storage.save_tasks ⟨some [milkTask], none⟩ [] ⟨false, true, true⟩).1.tmp = none := by
  refine ⟨rfl, ?_, ?_⟩
  · exact (C2_save_tasks_atomic ⟨some [milkTask], none⟩ [] ⟨false, true, true⟩).2.1 rfl
  · exact (C2_save_tasks_atomic ⟨some [milkTask], none⟩ [] ⟨false, true, true⟩).2.2 rfl

/-! ## C10: web title validation measures the raw string -/

/-- C10 counterexample: the claim quantifies over every title whose trimmed
length is within the limit while the raw length exceeds it, but a title of
501 spaces (trimmed length 0) fails with the empty-title error, not the
too-long error. -/
theorem C10_whitespace_only_hits_empty_error :
    (pyStrip (String.mk (List.replicate 501 ' '))).length ≤ 500
    ∧ (String.mk (List.replicate 501 ' ')).length > 500
    ∧ validate_task_title (some (String.mk (List.replicate 501 ' ')))
        = (false, some "Title is required and cannot be empty")
    ∧ some "Title is required and cannot be empty"
        ≠ some "Title cannot exceed 500 characters" := by
  refine ⟨?_, ?_, ?_, by decide⟩ <;> decide

/-- C10 amended: for every title whose trimmed form is non-empty, the
500-character limit is checked against the raw untrimmed string: if the
trimmed length is at most 500 but the raw length exceeds 500, validation
fails with the too-long error. -/
theorem C10_raw_length_checked (s : String) (hne : pyStrip s ≠ "")
    (htrim : (pyStrip s).length ≤ 500) (hraw : s.length > 500) :
    validate_task_title (some s) = (false, some "Title cannot exceed 500 characters") := by
  have hs : s ≠ "" := by
    intro h
    subst h
    simp at hraw
  simp [validate_task_title, hs, hne, hraw]

/-- C10 witness: 500 spaces followed by one letter has raw length 501 and
trimmed length 1, and fails with the too-long error. -/
theorem C10_raw_length_checked_witness :
    validate_task_title (some (String.mk (List.replicate 500 ' ' ++ ['a'])))
      = (false, some "Title cannot exceed 500 characters") :=
  C10_raw_length_checked (String.mk (List.replicate 500 ' ' ++ ['a']))
    (by decide) (by decide) (by decide)

/-! ## C3: update with an empty title -/

/-- C3 counterexample: on a store containing task 1,
`update_task(1, title="")` fails with `NO_CHANGES_PROVIDED` — the empty
string is falsy under the `any([...])` guard, so the call is treated as
providing no fields — and not with the validation code that an empty title
produces. -/
theorem C3_empty_title_gives_no_changes_code :
    (Skills.update_task [milkTask] 1 (some "") none none none none sampleNow).2.error_code
        = some CODE_NO_CHANGES
    ∧ CODE_NO_CHANGES ≠ CODE_VALIDATION
    ∧ (Skills.update_task [milkTask] 1 (some "") none none none none sampleNow).1
        = [milkTask] := by
  refine ⟨rfl, by decide, rfl⟩

/-- C3 amended: `update_task(id=1, title="")` with no other field fails, but
with the `NO_CHANGES_PROVIDED` error code (the empty string being falsy, the
guard treats the call as providing no fields); storage is untouched and a
subsequent `find_by_id(1)` returns the prior record unchanged. -/
theorem C3_empty_title_update_rejected (tasks : List Task) (now : String) (t : Task)
    (h : Storage.find_task_by_id tasks 1 = some t) :
    (Skills.update_task tasks 1 (some "") none none none none now).1 = tasks
    ∧ (Skills.update_task tasks 1 (some "") none none none none now).2.success = false
    ∧ (Skills.update_task tasks 1 (some "") none none none none now).2.error_code
        = some CODE_NO_CHANGES
    ∧ Storage.find_task_by_id
        (Skills.update_task tasks 1 (some "") none none none none now).1 1 = some t :=
  ⟨rfl, rfl, rfl, h⟩

/-- C3 witness: the amended statement at the one-task store. -/
theorem C3_empty_title_update_rejected_witness :
    (Skills.update_task [milkTask] 1 (some "") none none none none sampleNow).2.success = false
    ∧ Storage.find_task_by_id
        (Skills.update_task [milkTask] 1 (some "") none none none none sampleNow).1 1
        = some milkTask :=
  ⟨(C3_empty_title_update_rejected [milkTask] sampleNow milkTask rfl).2.1,
   (C3_empty_title_update_rejected [milkTask] sampleNow milkTask rfl).2.2.2⟩

/-! ## C1: id assignment -/

/-- C1 counterexample: create, create, delete id 2 (successfully), create —
the final create reassigns id 2, which was previously deleted, and the three
creates assign [1, 2, 2] rather than {1, 2, 3}.  `get_next_id` is
max-plus-one, not a persistent counter. -/
theorem C1_deleted_id_reused :
    (runOps [.create, .create, .remove 2, .create]).assigned = [1, 2, 2]
    ∧ (runOps [.create, .create, .remove 2, .create]).deleted = [2]
    ∧ (runOps [.create, .create, .remove 2, .create]).assigned.getLast? = some 2
    ∧ 2 ∈ (runOps [.create, .create, .remove 2, .create]).deleted := by
  refine ⟨by decide, by decide, by decide, by decide⟩

theorem foldl_max_range (a n : Nat) :
    List.foldl max a (List.range' 1 n) = max a n := by
  induction n generalizing a with
  | zero => simp
  | succ m ih =>
    rw [List.range'_concat, List.foldl_append, ih]
    simp only [List.foldl_cons, List.foldl_nil]
    omega

theorem get_next_id_of_range (tasks : List Task) (n : Nat)
    (h : tasks.map Task.id = List.range' 1 n) :
    Storage.get_next_id tasks = n + 1 := by
  unfold Storage.get_next_id
  cases n with
  | zero =>
    have : tasks = [] := by simpa using h
    simp [this]
  | succ m =>
    have hne : tasks ≠ [] := by
      intro e
      subst e
      simp [List.range'_concat] at h
    rw [if_neg (by simpa using hne), h, foldl_max_range]
    omega

/-- C1 amended: `get_next_id` returns one more than the maximum current id,
so after N successive successful creates on an initially empty store with no
intervening deletes the assigned ids are exactly 1, ..., N in order with no
repeats; deleting the task holding the maximum id, however, lets the next
create reassign that id (ids of deleted non-maximal tasks stay retired only
as long as a larger id remains). -/
theorem C1_ids_sequential_without_deletes (n : Nat) :
    (createMany n).map Task.id = List.range' 1 n := by
  induction n with
  | zero => rfl
  | succ m ih =>
    show ((Skills.add_task_state (createMany m) "task" .medium "general" none "now").1).map
        Task.id = _
    rw [Skills.add_task_state, List.range'_concat]
    simp only [List.map_append, List.map_cons, List.map_nil, ih,
      get_next_id_of_range (createMany m) m ih]
    have h1 : 1 + 1 * m = m + 1 := by omega
    rw [h1]

/-! ## C8: unrecognized sort keys -/

/-- C8 counterexample: "category" is outside the five documented sort keys,
yet `list_tasks` with `sort_by="category"` is not a no-op — it sorts by the
category attribute, returning the two tasks opposite to load order. -/
theorem C8_category_sorts_not_noop :
    ("category" ∉ (["id", "title", "priority", "created_at", "due_date"] : List String))
    ∧ Skills.list_tasks [catTaskB, catTaskA] none none none none false "category" "asc"
        none "json" 0
      = OperationResult.success_result "Showing 2 tasks" (some (.jsonTasks [catTaskA, catTaskB]))
    ∧ ([catTaskA, catTaskB] : List Task) ≠ [catTaskB, catTaskA] := by
  refine ⟨by decide, by decide, by decide⟩

/-- C8 amended: outside the five documented keys, `sort_by` splits by what
`getattr` resolves.  A value that resolves to no attribute at all is a
no-op, not an error: the `AttributeError` is swallowed and the operation
succeeds with the filtered tasks in load order.  A value naming another
data attribute (category, status, completed, updated_at, completed_at)
sorts by that attribute.  A value naming a Task method (mark_completed,
to_dict, ...) resolves to a bound method; once the sort compares two such
keys (two or more filtered tasks) the `TypeError` escapes the
`AttributeError` handler and the operation fails with `UNKNOWN_ERROR`. -/
theorem C8_unknown_sort_key_cases (sort_by sort_order : String)
    (hattr : keyFun sort_by = none) (tasks : List Task) (completed : Option Bool)
    (overdue_only : Bool) (now : Int) :
    (sort_by ∉ taskMethodNames →
      Skills.list_tasks tasks none none none completed overdue_only sort_by sort_order
          none "json" now
        = OperationResult.success_result
            ("Showing " ++ toString (tasks.filter (fun t =>
              TaskFilter.matches ⟨none, none, none, completed, overdue_only⟩ t now)).length
              ++ " tasks")
            (some (.jsonTasks (tasks.filter (fun t =>
              TaskFilter.matches ⟨none, none, none, completed, overdue_only⟩ t now)))))
    ∧ (sort_by ∈ taskMethodNames →
      2 ≤ (tasks.filter (fun t =>
          TaskFilter.matches ⟨none, none, none, completed, overdue_only⟩ t now)).length →
      Skills.list_tasks tasks none none none completed overdue_only sort_by sort_order
          none "json" now
        = OperationResult.error_result
            ("Unexpected error: " ++ methodCompareErrorText) "UNKNOWN_ERROR") := by
  constructor
  · intro hm
    simp [Skills.list_tasks, sortTasks, hattr, hm, pyTruthy]
  · intro hm hlen
    simp [Skills.list_tasks, sortTasks, hattr, hm, hlen, pyTruthy]

/-- C8 witness: on a two-task store, an unresolvable key succeeds in load
order while the method name "mark_completed" fails with `UNKNOWN_ERROR`. -/
theorem C8_unknown_sort_key_cases_witness :
    (Skills.list_tasks [catTaskB, catTaskA] none none none none false "bogus" "asc"
        none "json" 0
      = OperationResult.success_result "Showing 2 tasks"
          (some (.jsonTasks [catTaskB, catTaskA])))
    ∧ (Skills.list_tasks [catTaskB, catTaskA] none none none none false "mark_completed"
        "asc" none "json" 0
      = OperationResult.error_result
          ("Unexpected error: " ++ methodCompareErrorText) "UNKNOWN_ERROR") := by
  constructor
  · exact ((C8_unknown_sort_key_cases "bogus" "asc" rfl [catTaskB, catTaskA] none
      false 0).1 (by decide)).trans (by decide)
  · exact (C8_unknown_sort_key_cases "mark_completed" "asc" rfl [catTaskB, catTaskA]
      none false 0).2 (by decide) (by decide)

/-! ## C9: the upcoming-tasks window -/

theorem charListLe_total (as bs : List Char) :
    charListLe as bs = true ∨ charListLe bs as = true := by
  induction as generalizing bs with
  | nil => left; rfl
  | cons a as ih =>
    cases bs with
    | nil => right; rfl
    | cons b bs =>
      simp only [charListLe]
      rcases Nat.lt_trichotomy a.toNat b.toNat with h | h | h
      · left
        simp [h]
      · have h1 : ¬a.toNat < b.toNat := by omega
        have h2 : ¬b.toNat < a.toNat := by omega
        simpa [h1, h2] using ih bs
      · right
        simp [h]

theorem charListLe_trans (as bs cs : List Char) (h1 : charListLe as bs = true)
    (h2 : charListLe bs cs = true) : charListLe as cs = true := by
  induction as generalizing bs cs with
  | nil => rfl
  | cons a as ih =>
    cases bs with
    | nil => simp [charListLe] at h1
    | cons b bs =>
      cases cs with
      | nil => simp [charListLe] at h2
      | cons c cs =>
        simp only [charListLe] at h1 h2 ⊢
        split_ifs at h1 h2 ⊢ <;> try rfl
        all_goals try exact ih bs cs h1 h2
        all_goals try simp at h1
        all_goals try simp at h2
        all_goals omega

/-- The code keeps a task when the floor of the day difference lies in
`[0, days]`; that window is exactly `now ≤ due < now + (days+1)` days. -/
theorem fdiv_day_window (a days : Int) :
    (0 ≤ Int.fdiv a 86400 ∧ Int.fdiv a 86400 ≤ days) ↔
      (0 ≤ a ∧ a < (days + 1) * 86400) := by
  rw [Int.fdiv_eq_ediv _ (by norm_num)]
  omega

theorem upcomingPred_iff (days now : Int) (t : Task) :
    Skills.upcomingPred days now t = true ↔
      t.completed = false ∧ pyTruthy t.due_date = true
      ∧ ∃ due, fromisoformat (replaceZ (pyOrEmpty t.due_date)) = some due
          ∧ now ≤ naiveSeconds due ∧ naiveSeconds due < now + (days + 1) * 86400 := by
  unfold Skills.upcomingPred
  cases hc : t.completed
  · cases hd : pyTruthy t.due_date
    · simp [hd]
    · cases hp : fromisoformat (replaceZ (pyOrEmpty t.due_date)) with
      | none => simp [hd, hp]
      | some due =>
        simp [hd, hp, decide_eq_true_eq]
        have h := fdiv_day_window (naiveSeconds due - now) days
        constructor
        · intro hx
          have h2 := h.mp hx
          omega
        · intro hx
          exact h.mpr ⟨by omega, by omega⟩
  · simp [hc]

/-- C9 counterexample: with `days = 0`, a task due twelve hours after `now`
is outside `[now, now + 0 days]`, yet `get_upcoming_tasks` returns it —
`timedelta.days` floors the difference, so the selection window reaches to
the end of day `days`. -/
theorem C9_returns_task_beyond_window :
    (Skills.get_upcoming_tasks [noonTask] 0 schedNow).data = some [noonTask]
    ∧ (fromisoformat (replaceZ (pyOrEmpty noonTask.due_date))).map naiveSeconds
        = some (schedNow + 43200)
    ∧ schedNow + 43200 > schedNow + 0 * 86400 := by
  refine ⟨by decide, by decide, by decide⟩

/-- C9 amended: `get_upcoming_tasks(days)` returns exactly the non-completed
tasks with a truthy, parseable due date whose due instant lies in the
half-open window `[now, now + (days+1) days)` — the code compares the
floored whole-day difference against `[0, days]` — sorted ascending by the
due-date string. -/
theorem C9_upcoming_selection (tasks : List Task) (days now : Int) (l : List Task)
    (hl : (Skills.get_upcoming_tasks tasks days now).data = some l) :
    l.Sorted (fun a b => pyStrLe (pyOrEmpty a.due_date) (pyOrEmpty b.due_date) = true)
    ∧ ∀ t, t ∈ l ↔ t ∈ tasks ∧ t.completed = false ∧ pyTruthy t.due_date = true
        ∧ ∃ due, fromisoformat (replaceZ (pyOrEmpty t.due_date)) = some due
            ∧ now ≤ naiveSeconds due ∧ naiveSeconds due < now + (days + 1) * 86400 := by
  have hl' : l = List.insertionSort
      (fun a b => pyStrLe (pyOrEmpty a.due_date) (pyOrEmpty b.due_date) = true)
      (tasks.filter (Skills.upcomingPred days now)) := by
    simpa [Skills.get_upcoming_tasks, OperationResult.success_result] using hl.symm
  haveI : IsTotal Task
      (fun a b => pyStrLe (pyOrEmpty a.due_date) (pyOrEmpty b.due_date) = true) :=
    ⟨fun a b => charListLe_total _ _⟩
  haveI : IsTrans Task
      (fun a b => pyStrLe (pyOrEmpty a.due_date) (pyOrEmpty b.due_date) = true) :=
    ⟨fun a b c hab hbc => charListLe_trans _ _ _ hab hbc⟩
  subst hl'
  refine ⟨List.sorted_insertionSort _ _, fun t => ?_⟩
  rw [(List.perm_insertionSort _ _).mem_iff, List.mem_filter, upcomingPred_iff]

/-- C9 witness: the amended characterization at the one-task store; the noon
task is inside the half-open window for `days = 0`. -/
theorem C9_upcoming_selection_witness :
    noonTask ∈ [noonTask]
    ∧ (noonTask ∈ ([noonTask] : List Task) ∧ noonTask.completed = false
        ∧ pyTruthy noonTask.due_date = true
        ∧ ∃ due, fromisoformat (replaceZ (pyOrEmpty noonTask.due_date)) = some due
            ∧ schedNow ≤ naiveSeconds due
            ∧ naiveSeconds due < schedNow + (0 + 1) * 86400) := by
  have h := (C9_upcoming_selection [noonTask] 0 schedNow [noonTask] (by decide)).2 noonTask
  exact ⟨List.mem_singleton_self _, h.mp (List.mem_singleton_self _)⟩

/-! ## C4: the status/completed coupling under update_task -/

theorem exceptBind_ok {ε α β : Type} {x : Except ε α} {f : α → Except ε β} {b : β} :
    (x >>= f) = Except.ok b ↔ ∃ a, x = Except.ok a ∧ f a = Except.ok b := by
  cases x <;> simp [Bind.bind, Except.bind]

theorem updateFirst_found (task_id : Nat) (f : Task → Task)
    (hf : ∀ t : Task, (f t).id = t.id) :
    ∀ (tasks : List Task) (t : Task),
      Storage.find_task_by_id tasks task_id = some t →
      (Storage.updateFirst task_id f tasks).2 = true
      ∧ Storage.find_task_by_id (Storage.updateFirst task_id f tasks).1 task_id
          = some (f t)
  | [], t, h => by simp [Storage.find_task_by_id] at h
  | a :: rest, t, h => by
    by_cases ha : a.id = task_id
    · have ht : a = t := by
        simpa [Storage.find_task_by_id, List.find?_cons_of_pos, ha] using h
      subst ht
      simp [Storage.updateFirst, ha, Storage.find_task_by_id,
        List.find?_cons_of_pos, hf a]
    · have h' : Storage.find_task_by_id rest task_id = some t := by
        simpa [Storage.find_task_by_id, List.find?_cons_of_neg, ha] using h
      have ih := updateFirst_found task_id f hf rest t h'
      simp only [Storage.updateFirst, if_neg ha]
      constructor
      · exact ih.1
      · simpa [Storage.find_task_by_id, List.find?_cons_of_neg, ha] using ih.2

theorem stepTitle_preserves {title : Option String} {u v : Storage.Updates}
    (h : Skills.stepTitle title u = .ok v) :
    v.status = u.status ∧ v.completed = u.completed := by
  cases title with
  | none => cases h; exact ⟨rfl, rfl⟩
  | some s =>
    cases hv : validate_title s <;> simp [Skills.stepTitle, hv, Except.map] at h
    subst h
    exact ⟨rfl, rfl⟩

theorem stepPriority_preserves {priority : Option String} {u v : Storage.Updates}
    (h : Skills.stepPriority priority u = .ok v) :
    v.status = u.status ∧ v.completed = u.completed := by
  cases priority with
  | none => cases h; exact ⟨rfl, rfl⟩
  | some s =>
    cases hv : Priority.from_string s <;> simp [Skills.stepPriority, hv, Except.map] at h
    subst h
    exact ⟨rfl, rfl⟩

theorem stepCategory_preserves {category : Option String} {u v : Storage.Updates}
    (h : Skills.stepCategory category u = .ok v) :
    v.status = u.status ∧ v.completed = u.completed := by
  cases category with
  | none => cases h; exact ⟨rfl, rfl⟩
  | some s =>
    cases hv : validate_category s <;> simp [Skills.stepCategory, hv, Except.map] at h
    subst h
    exact ⟨rfl, rfl⟩

theorem stepDueDate_preserves {due_date : Option String} {u v : Storage.Updates}
    (h : Skills.stepDueDate due_date u = .ok v) :
    v.status = u.status ∧ v.completed = u.completed := by
  cases due_date with
  | none => cases h; exact ⟨rfl, rfl⟩
  | some s =>
    by_cases hs : s = ""
    · simp [Skills.stepDueDate, hs] at h
      subst h
      exact ⟨rfl, rfl⟩
    · cases hv : validate_due_date s <;>
        simp [Skills.stepDueDate, hs, hv, Except.map] at h
      subst h
      exact ⟨rfl, rfl⟩

theorem stepStatus_char {status : Option String} {u v : Storage.Updates}
    (h : Skills.stepStatus status u = .ok v) :
    (status = none ∧ v = u)
    ∨ (∃ s st, status = some s ∧ Status.from_string s = .ok st ∧ v.status = some st
        ∧ v.completed = (if st = Status.completed then some true else u.completed)) := by
  cases status with
  | none => cases h; left; exact ⟨rfl, rfl⟩
  | some s =>
    cases hv : Status.from_string s <;> simp [Skills.stepStatus, hv, Except.map] at h
    right
    rename_i st
    refine ⟨s, st, rfl, hv, ?_⟩
    by_cases hc : st = Status.completed <;> simp [hc] at h <;> subst h <;> simp [hc]

/-- The `status`/`completed` entries of a successfully validated updates
dict: absent when no status was provided, otherwise determined by the parsed
status, with `completed = True` added exactly when that status is
`completed`. -/
theorem buildUpdates_status_completed
    {title priority category status due_date : Option String} {u : Storage.Updates}
    (h : Skills.buildUpdates title priority category status due_date = .ok u) :
    (status = none ∧ u.status = none ∧ u.completed = none)
    ∨ (∃ s st, status = some s ∧ Status.from_string s = .ok st ∧ u.status = some st
        ∧ u.completed = (if st = Status.completed then some true else none)) := by
  unfold Skills.buildUpdates at h
  rcases exceptBind_ok.mp h with ⟨u4, h4, h5⟩
  rcases exceptBind_ok.mp h4 with ⟨u3, h3, hst⟩
  rcases exceptBind_ok.mp h3 with ⟨u2, h2, hcat⟩
  rcases exceptBind_ok.mp h2 with ⟨u1, hti, hpri⟩
  have e1 := stepTitle_preserves hti
  have e2 := stepPriority_preserves hpri
  have e3 := stepCategory_preserves hcat
  have e5 := stepDueDate_preserves h5
  have hu3 : u3.status = none ∧ u3.completed = none := by
    constructor
    · rw [e3.1, e2.1, e1.1]; rfl
    · rw [e3.2, e2.2, e1.2]; rfl
  rcases stepStatus_char hst with ⟨hn, hv⟩ | ⟨s, st, hs, hok, hvs, hvc⟩
  · left
    subst hv
    exact ⟨hn, e5.1.trans hu3.1, e5.2.trans hu3.2⟩
  · right
    refine ⟨s, st, hs, hok, e5.1.trans hvs, ?_⟩
    rw [e5.2, hvc, hu3.2]

/-- C4 counterexample: on a store whose task 1 satisfies the equivalence
(`completed = true`, `status = completed`), a successful
`update_task(1, status="pending")` stores `status = pending` while leaving
`completed = true`: the update made status and completed diverge. -/
theorem C4_uncomplete_via_status_diverges :
    (doneTask.completed = true ∧ doneTask.status = Status.completed)
    ∧ (Skills.update_task [doneTask] 1 none none none (some "pending") none
        sampleNow).2.success = true
    ∧ Storage.find_task_by_id
        (Skills.update_task [doneTask] 1 none none none (some "pending") none
          sampleNow).1 1
      = some { doneTask with status := Status.pending, updated_at := some sampleNow }
    ∧ ({ doneTask with
          status := Status.pending
          updated_at := some sampleNow } : Task).completed = true
    ∧ ({ doneTask with
          status := Status.pending
          updated_at := some sampleNow } : Task).status ≠ Status.completed := by
  refine ⟨⟨rfl, rfl⟩, by decide, by decide, rfl, by decide⟩

/-- C4 amended: a successful `update_task` that sets `status` to completed
also stores `completed = true` in the same update; but an update that sets
`status` to pending or in-progress leaves `completed` unchanged, so starting
from a task satisfying the equivalence, the stored task satisfies
`completed = true ↔ status = completed` after every successful update
except exactly when the update sets a non-completed status on a task whose
`completed` was true — in that case `completed` stays true and diverges. -/
theorem C4_status_completed_coupling (tasks : List Task) (task_id : Nat)
    (title priority category status due_date : Option String) (now : String)
    (t t' : Task)
    (hfind : Storage.find_task_by_id tasks task_id = some t)
    (hpre : t.completed = true ↔ t.status = Status.completed)
    (hsucc : (Skills.update_task tasks task_id title priority category status
        due_date now).2.success = true)
    (hfind2 : Storage.find_task_by_id
        (Skills.update_task tasks task_id title priority category status
          due_date now).1 task_id = some t') :
    (∀ s, status = some s → Status.from_string s = Except.ok Status.completed →
        t'.completed = true ∧ t'.status = Status.completed)
    ∧ ((t'.completed = true ↔ t'.status = Status.completed)
        ∨ (t.completed = true ∧ t'.completed = true
            ∧ t'.status ≠ Status.completed)) := by
  cases hX : (pyTruthy title || pyTruthy priority || pyTruthy category
      || pyTruthy status || pyTruthy due_date) with
  | false =>
    simp [Skills.update_task, hX, OperationResult.error_result] at hsucc
  | true =>
    cases hb : Skills.buildUpdates title priority category status due_date with
    | error e =>
      simp [Skills.update_task, hX, hfind, hb, OperationResult.error_result] at hsucc
    | ok u =>
      have hspec := updateFirst_found task_id
        (fun t0 => { Storage.applyUpdates t0 u with updated_at := some now })
        (fun t0 => rfl) tasks t hfind
      have h2 : (Storage.update_task tasks task_id u now).2 = true := hspec.1
      have hres : (Skills.update_task tasks task_id title priority category status
          due_date now).1 = (Storage.update_task tasks task_id u now).1 := by
        simp [Skills.update_task, hX, hfind, hb, h2]
      rw [hres] at hfind2
      have hft : Storage.find_task_by_id
          (Storage.update_task tasks task_id u now).1 task_id
          = some { Storage.applyUpdates t u with updated_at := some now } := hspec.2
      have ht' : t' = { Storage.applyUpdates t u with updated_at := some now } :=
        (Option.some.inj (hft.symm.trans hfind2)).symm
      subst ht'
      rcases buildUpdates_status_completed hb with
        ⟨hn, hus, huc⟩ | ⟨s, st, hs, hok, hus, huc⟩
      · constructor
        · intro s hsome
          rw [hn] at hsome
          cases hsome
        · left
          simp [Storage.applyUpdates, hus, huc]
          exact hpre
      · constructor
        · intro s0 hsome hokc
          rw [hs] at hsome
          cases Option.some.inj hsome
          rw [hok] at hokc
          cases Except.ok.inj hokc
          simp [Storage.applyUpdates, hus, huc]
        · by_cases hc : st = Status.completed
          · left
            subst hc
            simp [Storage.applyUpdates, hus, huc]
          · cases htc : t.completed with
            | false =>
              left
              simp [Storage.applyUpdates, hus, huc, hc, htc]
            | true =>
              right
              refine ⟨rfl, ?_, ?_⟩
              · simp [Storage.applyUpdates, huc, hc, htc]
              · simp [Storage.applyUpdates, hus, hc]

/-- C4 witness: updating a pending task with `status="completed"` stores
`completed = true` and `status = completed`, preserving the equivalence. -/
theorem C4_status_completed_coupling_witness :
    ((Skills.update_task [milkTask] 1 none none none (some "completed") none
        sampleNow).2.success = true)
    ∧ ∃ t', Storage.find_task_by_id
        (Skills.update_task [milkTask] 1 none none none (some "completed") none
          sampleNow).1 1 = some t'
      ∧ t'.completed = true ∧ t'.status = Status.completed := by
  have hfind2 : Storage.find_task_by_id
      (Skills.update_task [milkTask] 1 none none none (some "completed") none
        sampleNow).1 1
      = some { milkTask with
          status := Status.completed
          completed := true
          updated_at := some sampleNow } := by decide
  refine ⟨by decide, _, hfind2, ?_⟩
  exact (C4_status_completed_coupling [milkTask] 1 none none none
    (some "completed") none sampleNow milkTask _ (by decide) (by decide)
    (by decide) hfind2).1 "completed" rfl rfl

/-! ## C7: the Z suffix of validated due dates -/

theorem digitChar_ne_plus (n : Nat) : digitChar n ≠ '+' := by
  unfold digitChar
  have h : n % 10 < 10 := Nat.mod_lt _ (by norm_num)
  set m := n % 10 with hm
  interval_cases m <;> decide

theorem digitChar_ne_Z (n : Nat) : digitChar n ≠ 'Z' := by
  unfold digitChar
  have h : n % 10 < 10 := Nat.mod_lt _ (by norm_num)
  set m := n % 10 with hm
  interval_cases m <;> decide

theorem digitChar_eq_zero_iff (n : Nat) : digitChar n = '0' ↔ n % 10 = 0 := by
  unfold digitChar
  have h : n % 10 < 10 := Nat.mod_lt _ (by norm_num)
  set m := n % 10 with hm
  interval_cases m <;> decide

theorem plus_not_mem_pad2 (n : Nat) : '+' ∉ pad2 n := by
  intro h
  rcases (by simpa [pad2] using h : '+' = digitChar (n / 10) ∨ '+' = digitChar n)
    with h1 | h1 <;> exact digitChar_ne_plus _ h1.symm

theorem plus_not_mem_pad4 (n : Nat) : '+' ∉ pad4 n := by
  intro h
  rcases (by simpa [pad4] using h :
      '+' = digitChar (n / 1000) ∨ '+' = digitChar (n / 100)
      ∨ '+' = digitChar (n / 10) ∨ '+' = digitChar n)
    with h1 | h1 | h1 | h1 <;> exact digitChar_ne_plus _ h1.symm

theorem plus_not_mem_core (dt : PyDateTime) : '+' ∉ coreChars dt := by
  intro h
  simp only [coreChars, List.mem_append, List.mem_cons] at h
  rcases h with ((((h | h | h) | h | h) | h | h) | h | h) | h | h
  · exact plus_not_mem_pad4 _ h
  · exact absurd h (by decide)
  · exact plus_not_mem_pad2 _ h
  · exact absurd h (by decide)
  · exact plus_not_mem_pad2 _ h
  · exact absurd h (by decide)
  · exact plus_not_mem_pad2 _ h
  · exact absurd h (by decide)
  · exact plus_not_mem_pad2 _ h
  · exact absurd h (by decide)
  · exact plus_not_mem_pad2 _ h

theorem coreChars_getLast (dt : PyDateTime) :
    (coreChars dt).getLast? = some (digitChar dt.second) := by
  simp [coreChars, pad4, pad2]

theorem isPrefixOf_cons_of_ne {c a : Char} (p as : List Char) (h : a ≠ c) :
    (c :: p).isPrefixOf (a :: as) = false := by
  simp only [List.isPrefixOf_cons₂, Bool.and_eq_false_iff, beq_eq_false_iff_ne]
  exact Or.inl fun e => h e.symm

theorem pyReplaceF_no_hit {c : Char} {p rep : List Char} :
    ∀ s : List Char, c ∉ s → pyReplaceF s.length (c :: p) rep s = s
  | [], _ => rfl
  | a :: as, h => by
    have ha : a ≠ c := fun e => h (by simp [e])
    have hcs : c ∉ as := fun e => h (List.mem_cons_of_mem _ e)
    show pyReplaceF (as.length + 1) (c :: p) rep (a :: as) = a :: as
    rw [pyReplaceF, isPrefixOf_cons_of_ne p as ha]
    simp only [Bool.and_false, Bool.false_eq_true, if_false]
    rw [pyReplaceF_no_hit as hcs]

theorem pyReplace_no_hit {c : Char} {p rep : List Char} (s : List Char)
    (h : c ∉ s) : pyReplace (c :: p) rep s = s :=
  pyReplaceF_no_hit s h

theorem pyReplaceF_append {c : Char} {p rep : List Char} :
    ∀ s r : List Char, c ∉ s →
      pyReplaceF (s ++ r).length (c :: p) rep (s ++ r)
        = s ++ pyReplaceF r.length (c :: p) rep r
  | [], _, _ => rfl
  | a :: as, r, h => by
    have ha : a ≠ c := fun e => h (by simp [e])
    have hcs : c ∉ as := fun e => h (List.mem_cons_of_mem _ e)
    show pyReplaceF ((as ++ r).length + 1) (c :: p) rep (a :: (as ++ r))
        = a :: (as ++ pyReplaceF r.length (c :: p) rep r)
    rw [pyReplaceF, isPrefixOf_cons_of_ne p (as ++ r) ha]
    simp only [Bool.and_false, Bool.false_eq_true, if_false]
    rw [pyReplaceF_append as r hcs]

theorem pyReplace_append {c : Char} {p rep : List Char} (s r : List Char)
    (h : c ∉ s) :
    pyReplace (c :: p) rep (s ++ r) = s ++ pyReplace (c :: p) rep r := by
  unfold pyReplace
  exact pyReplaceF_append s r h

theorem pyReplace_head_mismatch {c : Char} {p rep t : List Char}
    (hp : p.isPrefixOf t = false) :
    pyReplace (c :: p) rep (c :: t) = c :: pyReplace (c :: p) rep t := by
  show pyReplaceF (t.length + 1) (c :: p) rep (c :: t) = _
  rw [pyReplaceF]
  simp only [List.isPrefixOf_cons₂, hp, Bool.and_false, Bool.false_eq_true, if_false]
  rfl

theorem parseOffset_bound {cs : List Char} {k : Int}
    (h : parseOffset cs = some (some k)) : k.natAbs < 1440 := by
  cases cs with
  | nil => simp [parseOffset] at h
  | cons sign rest =>
    simp only [parseOffset] at h
    split_ifs at h with hs hsig
    all_goals
      cases hp1 : parse2 rest with
      | none =>
        rw [hp1] at h
        simp only [Option.bind_eq_bind', Option.none_bind] at h
        exact Option.noConfusion h
      | some pr1 =>
        rw [hp1] at h
        simp only [Option.bind_eq_bind', Option.some_bind] at h
        cases he1 : expectChar ':' pr1.2 with
        | none =>
          rw [he1] at h
          simp only [Option.bind_eq_bind', Option.none_bind] at h
          exact Option.noConfusion h
        | some r2 =>
          rw [he1] at h
          simp only [Option.bind_eq_bind', Option.some_bind] at h
          cases hp2 : parse2 r2 with
          | none =>
            rw [hp2] at h
            simp only [Option.bind_eq_bind', Option.none_bind] at h
            exact Option.noConfusion h
          | some pr2 =>
            rw [hp2] at h
            simp only [Option.bind_eq_bind', Option.some_bind] at h
            split_ifs at h with hcond
            simp only [Bool.and_eq_true, decide_eq_true_eq] at hcond
            have hk := (Option.some.inj (Option.some.inj h)).symm
            omega

theorem parseTimePart_tz_bound {cs : List Char} {hh mi ss : Nat} {tz : Option Int}
    (h : parseTimePart cs = some (hh, mi, ss, tz)) {k : Int} (hk : tz = some k) :
    k.natAbs < 1440 := by
  cases cs with
  | nil =>
    have he := Option.some.inj h
    have htz : (none : Option Int) = tz := congrArg (fun q => q.2.2.2) he
    rw [← htz] at hk
    cases hk
  | cons c0 rest =>
    simp only [parseTimePart] at h
    cases hp1 : parse2 rest with
    | none =>
      rw [hp1] at h
      simp only [Option.bind_eq_bind', Option.none_bind] at h
      exact Option.noConfusion h
    | some pr1 =>
      rw [hp1] at h
      simp only [Option.bind_eq_bind', Option.some_bind] at h
      cases he1 : expectChar ':' pr1.2 with
      | none =>
        rw [he1] at h
        simp only [Option.bind_eq_bind', Option.none_bind] at h
        exact Option.noConfusion h
      | some r2 =>
        rw [he1] at h
        simp only [Option.bind_eq_bind', Option.some_bind] at h
        cases hp2 : parse2 r2 with
        | none =>
          rw [hp2] at h
          simp only [Option.bind_eq_bind', Option.none_bind] at h
          exact Option.noConfusion h
        | some pr2 =>
          rw [hp2] at h
          simp only [Option.bind_eq_bind', Option.some_bind] at h
          cases hps : parseSeconds pr2.2 with
          | none =>
            rw [hps] at h
            simp only [Option.bind_eq_bind', Option.none_bind] at h
            exact Option.noConfusion h
          | some prs =>
            rw [hps] at h
            simp only [Option.bind_eq_bind', Option.some_bind] at h
            cases hpo : parseOffset prs.2 with
            | none =>
              rw [hpo] at h
              simp only [Option.bind_eq_bind', Option.none_bind] at h
              exact Option.noConfusion h
            | some tz2 =>
              rw [hpo] at h
              simp only [Option.bind_eq_bind', Option.some_bind] at h
              have he := Option.some.inj h
              have htz : tz2 = tz := congrArg (fun q => q.2.2.2) he
              rw [htz, hk] at hpo
              exact parseOffset_bound hpo

theorem fromisoformat_tz_bound {s : String} {dt : PyDateTime}
    (h : fromisoformat s = some dt) {k : Int} (hk : dt.tz = some k) :
    k.natAbs < 1440 := by
  simp only [fromisoformat] at h
  cases h1 : parse4 s.data with
  | none =>
    rw [h1] at h
    simp only [Option.bind_eq_bind', Option.none_bind] at h
    exact Option.noConfusion h
  | some p1 =>
    rw [h1] at h
    simp only [Option.bind_eq_bind', Option.some_bind] at h
    cases h2 : expectChar '-' p1.2 with
    | none =>
      rw [h2] at h
      simp only [Option.bind_eq_bind', Option.none_bind] at h
      exact Option.noConfusion h
    | some cs2 =>
      rw [h2] at h
      simp only [Option.bind_eq_bind', Option.some_bind] at h
      cases h3 : parse2 cs2 with
      | none =>
        rw [h3] at h
        simp only [Option.bind_eq_bind', Option.none_bind] at h
        exact Option.noConfusion h
      | some p3 =>
        rw [h3] at h
        simp only [Option.bind_eq_bind', Option.some_bind] at h
        cases h4 : expectChar '-' p3.2 with
        | none =>
          rw [h4] at h
          simp only [Option.bind_eq_bind', Option.none_bind] at h
          exact Option.noConfusion h
        | some cs4 =>
          rw [h4] at h
          simp only [Option.bind_eq_bind', Option.some_bind] at h
          cases h5 : parse2 cs4 with
          | none =>
            rw [h5] at h
            simp only [Option.bind_eq_bind', Option.none_bind] at h
            exact Option.noConfusion h
          | some p5 =>
            rw [h5] at h
            simp only [Option.bind_eq_bind', Option.some_bind] at h
            cases h6 : parseTimePart p5.2 with
            | none =>
              rw [h6] at h
              simp only [Option.bind_eq_bind', Option.none_bind] at h
              exact Option.noConfusion h
            | some p6 =>
              rw [h6] at h
              simp only [Option.bind_eq_bind', Option.some_bind] at h
              split_ifs at h with hcond
              have hdt := Option.some.inj h
              rw [← hdt] at hk
              simp only at hk
              have hp6 : p6 = (p6.1, p6.2.1, p6.2.2.1, p6.2.2.2) := rfl
              rw [hp6] at h6
              exact parseTimePart_tz_bound h6 hk

theorem offsetChars_zero : offsetChars (some 0) = "+00:00".data := by decide

theorem plus_not_mem_tail2 (a b : Nat) : '+' ∉ pad2 a ++ ':' :: pad2 b := by
  intro h
  simp only [List.mem_append, List.mem_cons] at h
  rcases h with h | h | h
  · exact plus_not_mem_pad2 _ h
  · exact absurd h (by decide)
  · exact plus_not_mem_pad2 _ h

/-- C7 counterexample: the date-only input "2024-01-01" parses successfully,
but the value returned by `validate_due_date` is "2024-01-01T00:00:00" with
no "Z" suffix (and no timezone marker at all). -/
theorem C7_naive_input_no_z :
    validate_due_date "2024-01-01" = Except.ok "2024-01-01T00:00:00"
    ∧ endsWithZ "2024-01-01T00:00:00" = false := by
  refine ⟨rfl, by decide⟩

/-- C7 amended: `validate_due_date` re-serializes the parsed value with
`isoformat()` and only rewrites a literal "+00:00" offset to "Z": the result
carries a "Z" suffix exactly when the parsed input has an explicit UTC
(+00:00, i.e. trailing "Z" or "+00:00") offset; naive inputs (date-only or
datetime without offset) come back without any timezone marker, and non-UTC
offsets are preserved rather than converted. -/
theorem C7_z_suffix_iff (s r : String) (dt : PyDateTime)
    (hp : fromisoformat (replaceZ s) = some dt)
    (hv : validate_due_date s = Except.ok r) :
    (endsWithZ r = true ↔ dt.tz = some 0) := by
  have hr : r.data = pyReplace "+00:00".data ['Z'] (isoformatChars dt) := by
    simp only [validate_due_date, hp] at hv
    have he := Except.ok.inj hv
    rw [← he]
  unfold endsWithZ
  rw [hr]
  rw [show ("+00:00".data : List Char) = '+' :: "00:00".data from rfl]
  cases htz : dt.tz with
  | none =>
    have hiso : isoformatChars dt = coreChars dt := by
      rw [isoformatChars, htz]
      simp [offsetChars]
    rw [hiso, pyReplace_no_hit _ (plus_not_mem_core dt)]
    rw [coreChars_getLast]
    simp [digitChar_ne_Z dt.second]
  | some k =>
    rcases lt_trichotomy k 0 with hk | hk | hk
    · have hofs : offsetChars (some k)
          = '-' :: (pad2 (k.natAbs / 60) ++ ':' :: pad2 (k.natAbs % 60)) := by
        simp [offsetChars, hk]
      have hplus : '+' ∉ isoformatChars dt := by
        rw [isoformatChars, htz, hofs]
        intro hmem
        rcases List.mem_append.mp hmem with hm | hm
        · exact plus_not_mem_core dt hm
        · rcases List.mem_cons.mp hm with hm | hm
          · exact absurd hm (by decide)
          · exact plus_not_mem_tail2 _ _ hm
      rw [pyReplace_no_hit _ hplus, isoformatChars, htz, hofs]
      simp [pad2, digitChar_ne_Z, hk.ne]
    · subst hk
      have hiso : isoformatChars dt = coreChars dt ++ ('+' :: "00:00".data) := by
        rw [isoformatChars, htz, offsetChars_zero]
      rw [hiso, pyReplace_append _ _ (plus_not_mem_core dt)]
      rw [show pyReplace ('+' :: "00:00".data) ['Z'] ('+' :: "00:00".data)
          = ['Z'] from by decide]
      simp [List.getLast?_append]
    · have hb : k.natAbs < 1440 := fromisoformat_tz_bound hp htz
      have hofs : offsetChars (some k)
          = '+' :: (pad2 (k.natAbs / 60) ++ ':' :: pad2 (k.natAbs % 60)) := by
        simp [offsetChars, show ¬k < 0 from by omega]
      have hnopre : ("00:00".data).isPrefixOf
          (pad2 (k.natAbs / 60) ++ ':' :: pad2 (k.natAbs % 60)) = false := by
        rw [Bool.eq_false_iff]
        intro htrue
        rw [show ("00:00".data : List Char) = ['0', '0', ':', '0', '0'] from rfl] at htrue
        simp only [pad2, List.cons_append, List.nil_append, List.isPrefixOf_cons₂,
          Bool.and_eq_true, beq_iff_eq] at htrue
        obtain ⟨e1, e2, _, e3, e4, _⟩ := htrue
        have f1 : (k.natAbs / 60 / 10) % 10 = 0 := (digitChar_eq_zero_iff _).mp e1.symm
        have f2 : (k.natAbs / 60) % 10 = 0 := (digitChar_eq_zero_iff _).mp e2.symm
        have f3 : (k.natAbs % 60 / 10) % 10 = 0 := (digitChar_eq_zero_iff _).mp e3.symm
        have f4 : (k.natAbs % 60) % 10 = 0 := (digitChar_eq_zero_iff _).mp e4.symm
        omega
      rw [isoformatChars, htz, hofs, pyReplace_append _ _ (plus_not_mem_core dt)]
      rw [pyReplace_head_mismatch hnopre]
      rw [pyReplace_no_hit _ (plus_not_mem_tail2 _ _)]
      simp [pad2, digitChar_ne_Z, hk.ne']

/-- C7 witness: an input with an explicit "Z" offset round-trips with the
"Z" suffix, and its parsed offset is UTC. -/
theorem C7_z_suffix_iff_witness :
    endsWithZ "2024-01-01T10:00:00Z" = true
    ∧ (⟨2024, 1, 1, 10, 0, 0, some 0⟩ : PyDateTime).tz = some 0 := by
  have h := C7_z_suffix_iff "2024-01-01T10:00:00Z" "2024-01-01T10:00:00Z"
    ⟨2024, 1, 1, 10, 0, 0, some 0⟩ (by decide) rfl
  exact ⟨h.mpr rfl, rfl⟩

end Todo

